import Mathlib

/-! Verification of the vibe-todo state-management core

A shallow embedding of the reducer (`src/state.hpp`) and the persistence
codec (`src/persistence.cpp`) of the task-list application, together with
proofs of the testable properties stated by the spec.

Machine-integer conventions: `selected_index` is a C++ `int`, modelled as
`Int`; container sizes are `std::size_t`, modelled as `Nat`.  The reducer
compares the signed index against the unsigned size (`i < v.size()`), which
converts the `int` to `size_t` first: a negative index becomes a value of at
least `2^64 - 2^31`, far above any attainable container size, so the mixed
comparison holds exactly when `0 ≤ i ∧ i < size`.  This is captured by
`usizeLt` below.
-/

namespace VibeTodo

/-- Structure `TodoItem` from `state.hpp`: `{ std::string text; bool done; }`. -/
structure TodoItem where
  text : String
  done : Bool
deriving DecidableEq, Repr

/-- Structure `AppState` from `state.hpp`.  `todos` is the `immer::flex_vector`
modelled as a list; the defaults mirror the C++ member initialisers. -/
structure AppState where
  todos : List TodoItem
  current_input : String := ""
  selected_index : Int := -1
  status_message : String := "Ready"
  exit_requested : Bool := false
deriving DecidableEq, Repr

/-- The ten action variants of `Action = std::variant<...>` in `state.hpp`. -/
inductive Action where
  | setInputText (text : String)
  | addTodo
  | removeSelectedTodo
  | toggleSelectedTodo
  | selectTodo (index : Int)
  | requestSave
  | requestLoad
  | loadComplete (loaded_state : Option AppState) (message : String)
  | setStatus (message : String)
  | quit
deriving DecidableEq, Repr

/-- The effect produced by the reducer, as inert data: `lager::noop`,
`save_effect(state)` (which captures the pre-transition state), or
`load_effect()`. -/
inductive AppEffect where
  | noop
  | save (state : AppState)
  | load
deriving DecidableEq, Repr

/-- The C++ mixed-sign comparison `i < v.size()` used in the guards of the reducer: the signed `int` operand is converted to the unsigned `size_t`, so a
negative `i` becomes a value of at least `2^64 - 2^31`, exceeding every
attainable container size; hence the test holds exactly when
`0 ≤ i ∧ i < size`.  In particular `-1 < v.size()` is always `false`. -/
def usizeLt (i : Int) (n : Nat) : Prop := 0 ≤ i ∧ i < (n : Int)

instance (i : Int) (n : Nat) : Decidable (usizeLt i n) := by
  unfold usizeLt; infer_instance

/-- The reducer of `state.hpp` (lines 113-204): one case per action variant,
in source order.  Status strings are taken from the source verbatim. -/
def reducer (current_state : AppState) (action : Action) :
    AppState × AppEffect :=
  match action with
  | .setInputText text =>
      ({ current_state with current_input := text }, .noop)
  | .addTodo =>
      if current_state.current_input ≠ "" then
        let todos := current_state.todos ++ [⟨current_state.current_input, false⟩]
        ({ current_state with
            todos := todos
            current_input := ""
            selected_index := (todos.length : Int) - 1
            status_message := "Todo added." }, .noop)
      else
        ({ current_state with status_message := "Input is empty." }, .noop)
  | .removeSelectedTodo =>
      if current_state.selected_index ≥ 0 ∧
          usizeLt current_state.selected_index current_state.todos.length then
        let index_to_remove := current_state.selected_index.toNat
        let todos := current_state.todos.eraseIdx index_to_remove
        let sel : Int :=
          if todos.isEmpty then -1
          else if ¬ usizeLt current_state.selected_index todos.length then
            (todos.length : Int) - 1
          else current_state.selected_index
        ({ current_state with
            todos := todos
            selected_index := sel
            status_message := "Todo removed." }, .noop)
      else
        ({ current_state with status_message := "No item selected to remove." }, .noop)
  | .toggleSelectedTodo =>
      if current_state.selected_index ≥ 0 ∧
          usizeLt current_state.selected_index current_state.todos.length then
        let index_to_toggle := current_state.selected_index.toNat
        let updated_item := current_state.todos.getD index_to_toggle ⟨"", false⟩
        ({ current_state with
            todos := current_state.todos.set index_to_toggle
              { updated_item with done := !updated_item.done }
            status_message := "Todo toggled." }, .noop)
      else
        ({ current_state with status_message := "No item selected to toggle." }, .noop)
  | .selectTodo index =>
      if index ≥ -1 ∧ usizeLt index current_state.todos.length then
        ({ current_state with selected_index := index }, .noop)
      else
        (current_state, .noop)
  | .requestSave =>
      ({ current_state with status_message := "Saving..." }, .save current_state)
  | .requestLoad =>
      ({ current_state with status_message := "Loading..." }, .load)
  | .loadComplete loaded_state message =>
      match loaded_state with
      | some loaded =>
          let todos := loaded.todos
          ({ current_state with
              todos := todos
              selected_index := if todos.isEmpty then -1 else 0
              status_message := message }, .noop)
      | none =>
          ({ current_state with status_message := message }, .noop)
  | .setStatus message =>
      ({ current_state with status_message := message }, .noop)
  | .quit =>
      ({ current_state with
          exit_requested := true
          status_message := "Exiting..." }, .noop)

/-- The default-constructed `AppState{}` used by `main` when no saved state
is found. -/
def initialState : AppState := { todos := [] }

/-- Fold a sequence of actions through the reducer, keeping the state. -/
def applyActions (s : AppState) (acts : List Action) : AppState :=
  acts.foldl (fun st a => (reducer st a).1) s

/-- The bounds invariant of the spec, on a state. -/
def boundsInv (s : AppState) : Prop :=
  -1 ≤ s.selected_index ∧ s.selected_index < (s.todos.length : Int) ∧
    (s.todos = [] → s.selected_index = -1)

/-! The persistence codec (`src/persistence.cpp`).

The JSON document model: nlohmann-style values.  `obj` keeps its fields as
an association list; lookup takes the first binding of a key, matching the
unique-key documents the codec ever reads or writes. -/

/-- A JSON value, as handled by the nlohmann library in `persistence.cpp`. -/
inductive Json where
  | null
  | bool (b : Bool)
  | str (s : String)
  | num (n : Int)
  | arr (elems : List Json)
  | obj (fields : List (String × Json))

/-- Key lookup on a document: `some v` exactly when the value is an object
containing the key (what `j.contains(k)` guards and `j.at(k)` returns);
`none` when the key is absent or the value is not an object (where `at`
throws). -/
def Json.find (j : Json) (key : String) : Option Json :=
  match j with
  | .obj fields => fields.lookup key
  | _ => none

/-- Function `to_json(json&, const TodoItem&)` (persistence.cpp lines 21-23):
`{{"text", item.text}, {"done", item.done}}`. -/
def toJsonTodoItem (item : TodoItem) : Json :=
  .obj [("text", .str item.text), ("done", .bool item.done)]

/-- Function `from_json(const json&, TodoItem&)` (persistence.cpp lines 25-28):
`j.at("text")` must yield a string and `j.at("done")` a boolean; any
missing key or wrong type throws an nlohmann exception, modelled as
`Except.error`. -/
def fromJsonTodoItem (j : Json) : Except String TodoItem :=
  match j.find "text" with
  | some (.str t) =>
      match j.find "done" with
      | some (.bool d) => .ok ⟨t, d⟩
      | some _ => .error "type error at key done"
      | none => .error "key done not found"
  | some _ => .error "type error at key text"
  | none => .error "key text not found"

/-- Function `to_json(json&, const AppState&)` (persistence.cpp lines 31-35): writes
`{{"todos", <array of items>}}` — only the task list is persisted. -/
def toJsonAppState (state : AppState) : Json :=
  .obj [("todos", .arr (state.todos.map toJsonTodoItem))]

/-- Decoding of `j.at("todos").get<std::vector<TodoItem>>()`: nlohmann
converts the elements in order and the first failing element's exception
aborts the whole conversion. -/
def decodeItems : List Json → Except String (List TodoItem)
  | [] => .ok []
  | e :: rest =>
      match fromJsonTodoItem e with
      | .error msg => .error msg
      | .ok t =>
          match decodeItems rest with
          | .error msg => .error msg
          | .ok ts => .ok (t :: ts)

/-- Function `from_json(const json&, AppState&)` (persistence.cpp lines 37-54): when
the document contains a `"todos"` array, decode every element (an element
failure propagates as an exception); otherwise print a warning and load the
EMPTY list — this branch succeeds (and `todos.empty ? -1 : 0` is then -1).
The remaining fields are reset: `current_input := ""`,
`selected_index := todos.empty ? -1 : 0`,
`status_message := "State loaded."`, `exit_requested := false`. -/
def fromJsonAppState (j : Json) : Except String AppState :=
  match j.find "todos" with
  | some (.arr elems) =>
      match decodeItems elems with
      | .error msg => .error msg
      | .ok todos =>
          .ok { todos := todos
                current_input := ""
                selected_index := if todos.isEmpty then -1 else 0
                status_message := "State loaded."
                exit_requested := false }
  | _ =>
      .ok { todos := []
            current_input := ""
            selected_index := -1
            status_message := "State loaded."
            exit_requested := false }

/-! Theorems about the reducer. -/

/-- C8: dispatching AddTask with an empty `current_input` leaves `tasks`
unchanged (indeed the whole state except the status message) and sets the
status message to "Input is empty.". -/
theorem addTodo_empty_input (s : AppState) (h : s.current_input = "") :
    reducer s .addTodo =
      ({ s with status_message := "Input is empty." }, .noop) := by
  simp [reducer, h]

/-- Witness for C8 at a concrete state. -/
theorem addTodo_empty_input_witness :
    reducer ⟨[⟨"a", false⟩], "", 0, "Ready", false⟩ .addTodo =
      (⟨[⟨"a", false⟩], "", 0, "Input is empty.", false⟩, .noop) :=
  addTodo_empty_input (⟨[⟨"a", false⟩], "", 0, "Ready", false⟩ : AppState) rfl

/-- C6 counterexample: on a state with non-empty input the reducer appends
the task but sets the status message to "Todo added.", not "Task added" as
the claim states. -/
theorem addTodo_status_counterexample :
    ("x" : String) ≠ "" ∧
      (reducer ⟨[], "x", -1, "Ready", false⟩ .addTodo).1.status_message ≠
        "Task added" := by
  constructor <;> decide

/-- C6 (amended): with `current_input` non-empty, AddTask appends
`Task{current_input, done=false}`, clears the input, selects the new last
element, sets the status message to "Todo added." (the literal string in
the source), and produces no effect. -/
theorem addTodo_nonempty (s : AppState) (h : s.current_input ≠ "") :
    reducer s .addTodo =
      ({ s with
          todos := s.todos ++ [⟨s.current_input, false⟩]
          current_input := ""
          selected_index :=
            ((s.todos ++ [(⟨s.current_input, false⟩ : TodoItem)]).length : Int) - 1
          status_message := "Todo added." }, .noop) := by
  simp [reducer, h]

/-- Witness for the amended C6 at a concrete state. -/
theorem addTodo_nonempty_witness :
    reducer ⟨[⟨"a", true⟩], "b", 0, "Ready", false⟩ .addTodo =
      (⟨[⟨"a", true⟩, ⟨"b", false⟩], "", 1, "Todo added.", false⟩, .noop) := by
  have h := addTodo_nonempty ⟨[⟨"a", true⟩], "b", 0, "Ready", false⟩ (by decide)
  simpa using h

/-- C3: the claim says SelectTask(-1) is accepted and records -1 as the "no
selection" value, and the guard `act.index >= -1` in the source shows the
same intent; but the second guard conjunct `act.index < todos.size()`
compares the signed index converted to `size_t`, so `-1` becomes a huge
unsigned value and the test fails.  On a one-element list with element 0
selected, SelectTask(-1) therefore leaves the selection at 0 instead of
clearing it. -/
theorem selectTodo_neg_one_rejected :
    ((-1 : Int) ≥ -1 ∧ (-1 : Int) < ((1 : Nat) : Int)) ∧
      reducer ⟨[⟨"a", false⟩], "", 0, "Ready", false⟩ (.selectTodo (-1)) =
        (⟨[⟨"a", false⟩], "", 0, "Ready", false⟩, .noop) := by
  constructor
  · constructor <;> decide
  · rfl

/-- C7: LoadCompleted(snapshotOpt, msg): when the snapshot is absent, only
the status message changes (to msg); when present, `tasks` is replaced by
the todos of the snapshot, the selection becomes -1 on an empty snapshot
and 0 otherwise, and the status message becomes msg.  No effect is
produced. -/
theorem loadComplete_spec (s : AppState) (opt : Option AppState)
    (msg : String) :
    (opt = none →
      reducer s (.loadComplete opt msg) =
        ({ s with status_message := msg }, .noop)) ∧
    (∀ st, opt = some st →
      reducer s (.loadComplete opt msg) =
        ({ s with
            todos := st.todos
            selected_index := if st.todos.isEmpty then -1 else 0
            status_message := msg }, .noop)) := by
  constructor
  · rintro rfl
    simp [reducer]
  · rintro st rfl
    simp [reducer]

/-- Witness for C7 at concrete inputs, both snapshot cases. -/
theorem loadComplete_spec_witness :
    (reducer ⟨[⟨"a", false⟩], "i", 0, "Ready", false⟩
        (.loadComplete none "m") =
      (⟨[⟨"a", false⟩], "i", 0, "m", false⟩, .noop)) ∧
    (reducer ⟨[⟨"a", false⟩], "i", 0, "Ready", false⟩
        (.loadComplete (some ⟨[⟨"b", true⟩], "z", -1, "x", true⟩) "m") =
      (⟨[⟨"b", true⟩], "i", 0, "m", false⟩, .noop)) := by
  constructor
  · exact (loadComplete_spec ⟨[⟨"a", false⟩], "i", 0, "Ready", false⟩
      none "m").1 rfl
  · have h := (loadComplete_spec ⟨[⟨"a", false⟩], "i", 0, "Ready", false⟩
      (some ⟨[⟨"b", true⟩], "z", -1, "x", true⟩) "m").2
      ⟨[⟨"b", true⟩], "z", -1, "x", true⟩ rfl
    simpa using h

/-- C10: `exit_requested` is monotone (once true it stays true under every
action) and only Quit can change it (every other action copies it, Quit
sets it to true). -/
theorem exit_requested_quit_only (s : AppState) (a : Action) :
    (s.exit_requested = true → (reducer s a).1.exit_requested = true) ∧
    (a ≠ .quit → (reducer s a).1.exit_requested = s.exit_requested) ∧
    (reducer s .quit).1.exit_requested = true := by
  refine ⟨?_, ?_, by simp [reducer]⟩ <;>
    cases a <;>
      simp [reducer] <;>
        intros <;>
          first
            | rfl
            | (split <;> rfl)
            | (split <;> simp_all)

/-- Witness for C10 at concrete inputs. -/
theorem exit_requested_quit_only_witness :
    ((reducer ⟨[], "", -1, "Ready", true⟩ (.setStatus "m")).1.exit_requested
        = true) ∧
    ((reducer ⟨[], "", -1, "Ready", false⟩ (.setStatus "m")).1.exit_requested
        = false) ∧
    (reducer ⟨[], "", -1, "Ready", false⟩ .quit).1.exit_requested = true := by
  refine ⟨?_, ?_, ?_⟩
  · exact (exit_requested_quit_only ⟨[], "", -1, "Ready", true⟩
      (.setStatus "m")).1 rfl
  · exact (exit_requested_quit_only ⟨[], "", -1, "Ready", false⟩
      (.setStatus "m")).2.1 (by decide)
  · exact (exit_requested_quit_only ⟨[], "", -1, "Ready", false⟩
      (.setStatus "m")).2.2

/-- Preservation: a single reducer step keeps the bounds invariant. -/
theorem boundsInv_step (s : AppState) (a : Action) (h : boundsInv s) :
    boundsInv (reducer s a).1 := by
  obtain ⟨h1, h2, h3⟩ := h
  cases a with
  | setInputText t => exact ⟨h1, h2, h3⟩
  | addTodo =>
      simp only [reducer]
      split
      · refine ⟨?_, ?_, ?_⟩ <;> (simp [boundsInv]; try omega)
      · exact ⟨h1, h2, h3⟩
  | removeSelectedTodo =>
      simp only [reducer]
      split
      · next hg =>
          obtain ⟨hge, hi0, hilt⟩ := hg
          have hidx : s.selected_index.toNat < s.todos.length := by omega
          have hlen :
              (s.todos.eraseIdx s.selected_index.toNat).length =
                s.todos.length - 1 :=
            List.length_eraseIdx_of_lt hidx
          refine ⟨?_, ?_, ?_⟩ <;> dsimp only
          · split_ifs with hc1 hc2 <;> omega
          · split_ifs with hc1 hc2
            · omega
            · have hu : 0 ≤ s.selected_index ∧
                  s.selected_index <
                    ((s.todos.eraseIdx s.selected_index.toNat).length : Int) :=
                hc2
              exact hu.2
            · have hne : s.todos.eraseIdx s.selected_index.toNat ≠ [] := by
                simpa [List.isEmpty_iff] using hc1
              have hpos := List.length_pos.mpr hne
              omega
          · intro hnil
            split_ifs with hc1 hc2
            · rfl
            · exact absurd (by simp [List.isEmpty_iff, hnil]) hc1
            · exact absurd (by simp [List.isEmpty_iff, hnil]) hc1
      · exact ⟨h1, h2, h3⟩
  | toggleSelectedTodo =>
      simp only [reducer]
      split
      · next hg =>
          obtain ⟨hge, hi0, hilt⟩ := hg
          refine ⟨h1, ?_, ?_⟩ <;> dsimp only
          · simpa using h2
          · intro hnil
            have hset := congrArg List.length hnil
            rw [List.length_set] at hset
            have hzero : s.todos.length = 0 := by simpa using hset
            omega
      · exact ⟨h1, h2, h3⟩
  | selectTodo i =>
      simp only [reducer]
      split
      · next hg =>
          obtain ⟨-, hi0, hilt⟩ := hg
          refine ⟨?_, ?_, ?_⟩ <;> dsimp only
          · omega
          · exact hilt
          · intro hnil
            rw [hnil] at hilt
            simp at hilt
            omega
      · exact ⟨h1, h2, h3⟩
  | requestSave => exact ⟨h1, h2, h3⟩
  | requestLoad => exact ⟨h1, h2, h3⟩
  | loadComplete opt msg =>
      cases opt with
      | none => exact ⟨h1, h2, h3⟩
      | some st =>
          simp only [reducer]
          refine ⟨?_, ?_, ?_⟩ <;> dsimp only
          · split_ifs <;> omega
          · split_ifs with he
            · omega
            · have hne : st.todos ≠ [] := by
                simpa [List.isEmpty_iff] using he
              have := List.length_pos.mpr hne
              omega
          · intro hnil
            split_ifs with he
            · rfl
            · exact absurd (by simp [List.isEmpty_iff, hnil]) he
  | setStatus msg => exact ⟨h1, h2, h3⟩
  | quit => exact ⟨h1, h2, h3⟩

/-- Preservation along any action sequence. -/
theorem boundsInv_applyActions (acts : List Action) (s : AppState)
    (h : boundsInv s) : boundsInv (applyActions s acts) := by
  induction acts generalizing s with
  | nil => exact h
  | cons a rest ih => exact ih _ (boundsInv_step s a h)

/-- C1: starting from the initial state, after every sequence of reducer
transitions `-1 ≤ selected_index < len(tasks)` holds, and an empty task
list forces `selected_index = -1`.  Since the sequence is arbitrary, the
invariant holds after each intermediate step of any run as well. -/
theorem bounds_invariant (acts : List Action) :
    boundsInv (applyActions initialState acts) :=
  boundsInv_applyActions acts initialState (by simp [initialState, boundsInv])

/-- Helper: writing back the element read at an index leaves a list
unchanged (out-of-range writes are no-ops, so no bound is needed). -/
theorem set_getElem_getD_self {α : Type} (l : List α) (i : Nat) (d : α) :
    l.set i (l[i]?.getD d) = l := by
  induction l generalizing i with
  | nil => rfl
  | cons a t ih =>
      cases i with
      | zero => simp
      | succ n => simp [ih]

/-- Helper: the `List.getD` form of `set_getElem_getD_self`. -/
theorem set_getD_self {α : Type} (l : List α) (i : Nat) (d : α) :
    l.set i (l.getD i d) = l := by
  rw [List.getD_eq_getElem?_getD]
  exact set_getElem_getD_self l i d

/-- Helper: reading back a just-written element, with a default. -/
theorem getD_set_self {α : Type} (l : List α) (i : Nat) (a d : α)
    (h : i < l.length) : (l.set i a).getD i d = a := by
  rw [List.getD_eq_getElem?_getD, List.getElem?_set_self h, Option.getD_some]

/-- Helper: the toggle branch of the reducer under a valid selection,
written as an explicit record equation. -/
theorem reducer_toggle_of_valid (s : AppState)
    (hg : s.selected_index ≥ 0 ∧
      usizeLt s.selected_index s.todos.length) :
    reducer s .toggleSelectedTodo =
      ({ s with
          todos := s.todos.set s.selected_index.toNat
            { s.todos.getD s.selected_index.toNat ⟨"", false⟩ with
                done :=
                  !(s.todos.getD s.selected_index.toNat ⟨"", false⟩).done }
          status_message := "Todo toggled." }, .noop) := by
  simp only [reducer, if_pos hg]

/-- Helper: the toggle branch of the reducer under an invalid selection. -/
theorem reducer_toggle_of_invalid (s : AppState)
    (hg : ¬(s.selected_index ≥ 0 ∧
      usizeLt s.selected_index s.todos.length)) :
    reducer s .toggleSelectedTodo =
      ({ s with status_message := "No item selected to toggle." }, .noop) := by
  simp only [reducer, if_neg hg]

/-- Helper: toggling the same position of a list twice restores the list. -/
theorem set_toggle_twice (l : List TodoItem) (i : Nat) (h : i < l.length) :
    ((l.set i { l.getD i ⟨"", false⟩ with
        done := !(l.getD i ⟨"", false⟩).done }).set i
      { (l.set i { l.getD i ⟨"", false⟩ with
          done := !(l.getD i ⟨"", false⟩).done }).getD i ⟨"", false⟩ with
        done := !((l.set i { l.getD i ⟨"", false⟩ with
          done := !(l.getD i ⟨"", false⟩).done }).getD i ⟨"", false⟩).done })
      = l := by
  have hy : (l.set i { l.getD i ⟨"", false⟩ with
      done := !(l.getD i ⟨"", false⟩).done }).getD i ⟨"", false⟩ =
      { l.getD i ⟨"", false⟩ with done := !(l.getD i ⟨"", false⟩).done } :=
    getD_set_self _ _ _ _ h
  rw [hy, List.set_set]
  have hx : ({ { l.getD i ⟨"", false⟩ with
      done := !(l.getD i ⟨"", false⟩).done } with
      done := !({ l.getD i ⟨"", false⟩ with
        done := !(l.getD i ⟨"", false⟩).done }).done } : TodoItem) =
      l.getD i ⟨"", false⟩ := by
    simp
  rw [hx, set_getD_self]

/-- Helper: toggling one position never changes the texts. -/
theorem set_toggle_map_text (l : List TodoItem) (i : Nat) :
    (l.set i { l.getD i ⟨"", false⟩ with
        done := !(l.getD i ⟨"", false⟩).done }).map TodoItem.text
      = l.map TodoItem.text := by
  have h1 : TodoItem.text { l.getD i ⟨"", false⟩ with
      done := !(l.getD i ⟨"", false⟩).done } =
      (l.map TodoItem.text).getD i "" :=
    (List.getD_map l ⟨"", false⟩ TodoItem.text).symm
  rw [List.map_set, h1, set_getD_self]

/-- C9: toggling twice with no intervening action restores the task list
exactly; moreover a single toggle keeps every position other than the
selected one unchanged and never changes any text, so it replaces the
selected element in place. -/
theorem toggle_toggle (s : AppState) :
    (reducer (reducer s .toggleSelectedTodo).1 .toggleSelectedTodo).1.todos
        = s.todos ∧
    (reducer s .toggleSelectedTodo).1.todos.map TodoItem.text
        = s.todos.map TodoItem.text ∧
    (∀ j : Nat, (j : Int) ≠ s.selected_index →
      (reducer s .toggleSelectedTodo).1.todos[j]? = s.todos[j]?) := by
  by_cases hg : s.selected_index ≥ 0 ∧
      usizeLt s.selected_index s.todos.length
  · obtain ⟨hge, hu⟩ := hg
    have hilt : s.selected_index < (s.todos.length : Int) := hu.2
    have hidx : s.selected_index.toNat < s.todos.length := by omega
    have h1 := reducer_toggle_of_valid s ⟨hge, hu⟩
    have hu1 : usizeLt s.selected_index
        ((s.todos.set s.selected_index.toNat
          { s.todos.getD s.selected_index.toNat ⟨"", false⟩ with
              done :=
                !(s.todos.getD s.selected_index.toNat ⟨"", false⟩).done
          }).length) := by
      unfold usizeLt at hu ⊢
      simpa using hu
    have h2 := reducer_toggle_of_valid
      { s with
          todos := s.todos.set s.selected_index.toNat
            { s.todos.getD s.selected_index.toNat ⟨"", false⟩ with
                done :=
                  !(s.todos.getD s.selected_index.toNat ⟨"", false⟩).done }
          status_message := "Todo toggled." } ⟨hge, hu1⟩
    rw [h1]
    dsimp only
    rw [h2]
    refine ⟨?_, ?_, ?_⟩ <;> dsimp only
    · exact set_toggle_twice s.todos s.selected_index.toNat hidx
    · exact set_toggle_map_text s.todos s.selected_index.toNat
    · intro j hj
      have hne : s.selected_index.toNat ≠ j := by omega
      exact List.getElem?_set_ne hne
  · have h1 := reducer_toggle_of_invalid s hg
    have h2 := reducer_toggle_of_invalid
      { s with status_message := "No item selected to toggle." } hg
    rw [h1]
    dsimp only
    rw [h2]
    exact ⟨rfl, rfl, fun j hj => rfl⟩

/-- Witness for C9 at a concrete state with a valid selection. -/
theorem toggle_toggle_witness :
    (reducer
        (reducer ⟨[⟨"a", false⟩, ⟨"b", true⟩], "", 1, "Ready", false⟩
          .toggleSelectedTodo).1
        .toggleSelectedTodo).1.todos = [⟨"a", false⟩, ⟨"b", true⟩] ∧
    (reducer ⟨[⟨"a", false⟩, ⟨"b", true⟩], "", 1, "Ready", false⟩
        .toggleSelectedTodo).1.todos[0]? = some ⟨"a", false⟩ := by
  have h := toggle_toggle ⟨[⟨"a", false⟩, ⟨"b", true⟩], "", 1, "Ready", false⟩
  exact ⟨h.1, (h.2.2 0 (by decide)).trans rfl⟩

/-! Theorems about the persistence codec. -/

/-- Helper: a single task round-trips through the item codec. -/
theorem fromJson_toJson_item (t : TodoItem) :
    fromJsonTodoItem (toJsonTodoItem t) = .ok t := rfl

/-- Helper: a task list round-trips through the element codecs. -/
theorem decodeItems_map_toJson (ts : List TodoItem) :
    decodeItems (ts.map toJsonTodoItem) = .ok ts := by
  induction ts with
  | nil => rfl
  | cons t rest ih =>
      simp [decodeItems, fromJson_toJson_item, ih]

/-- C2: decoding the document produced by encoding a state yields exactly
the original ordered task list (texts and done flags included); the other
fields of the decoded state are the reset values the codec assigns. -/
theorem decode_encode_roundtrip (s : AppState) :
    fromJsonAppState (toJsonAppState s) =
      .ok { todos := s.todos
            current_input := ""
            selected_index := if s.todos.isEmpty then -1 else 0
            status_message := "State loaded."
            exit_requested := false } := by
  unfold fromJsonAppState toJsonAppState
  simp [Json.find, decodeItems_map_toJson]

/-- C4 counterexample: after the concrete scenario the encoded document
carries its array under the top-level key "todos", and has no "tasks"
field at all, contradicting the claimed shape
`{"tasks":[{"text":"buy milk","done":true}]}`. -/
theorem encode_key_counterexample :
    (toJsonAppState ⟨[⟨"buy milk", true⟩], "", 0, "Saving...", false⟩).find
        "tasks" = none ∧
    toJsonAppState ⟨[⟨"buy milk", true⟩], "", 0, "Saving...", false⟩ =
      Json.obj [("todos", Json.arr [Json.obj
        [("text", Json.str "buy milk"), ("done", Json.bool true)]])] :=
  ⟨rfl, rfl⟩

/-- C4 (amended): the encoded document has the single top-level field
"todos" (not "tasks"), holding the `{text, done}` records in list order;
no other top-level key is present, so no other state field is persisted. -/
theorem encode_shape (s : AppState) :
    (toJsonAppState s).find "todos" =
      some (Json.arr (s.todos.map fun t =>
        Json.obj [("text", Json.str t.text), ("done", Json.bool t.done)])) ∧
    (∀ k, k ≠ "todos" → (toJsonAppState s).find k = none) := by
  constructor
  · rfl
  · intro k hk
    have hb : (k == "todos") = false := beq_eq_false_iff_ne.mpr hk
    simp [toJsonAppState, Json.find, List.lookup, hb]

/-- Witness for the amended C4 at the concrete scenario state. -/
theorem encode_shape_witness :
    (toJsonAppState ⟨[⟨"buy milk", true⟩], "", 0, "Saving...", false⟩).find
        "todos" =
      some (Json.arr [Json.obj
        [("text", Json.str "buy milk"), ("done", Json.bool true)]]) ∧
    (toJsonAppState ⟨[⟨"buy milk", true⟩], "", 0, "Saving...", false⟩).find
        "tasks" = none := by
  have h := encode_shape ⟨[⟨"buy milk", true⟩], "", 0, "Saving...", false⟩
  exact ⟨h.1, h.2 "tasks" (by decide)⟩

/-- C5 counterexample: a document without any tasks-equivalent key is
structurally invalid under the claim, yet the codec decodes it
successfully to the empty task list instead of returning an error. -/
theorem decode_missing_key_counterexample :
    (Json.obj [("other", Json.num 1)]).find "todos" = none ∧
    fromJsonAppState (Json.obj [("other", Json.num 1)]) =
      .ok { todos := []
            current_input := ""
            selected_index := -1
            status_message := "State loaded."
            exit_requested := false } :=
  ⟨rfl, rfl⟩

/-- C5 (amended): when the document does carry a "todos" array, a
malformed element (no string text or no boolean done) makes the whole
decode fail with an error; but a document whose "todos" key is missing or
not an array decodes successfully to the empty list with the fields reset
to their defaults. -/
theorem decode_invalid_documents :
    (∀ (j : Json) (elems : List Json),
      j.find "todos" = some (Json.arr elems) →
      (∃ e ∈ elems, ∃ msg, fromJsonTodoItem e = .error msg) →
      ∃ msg, fromJsonAppState j = .error msg) ∧
    (∀ j : Json,
      (∀ elems : List Json, j.find "todos" ≠ some (Json.arr elems)) →
      fromJsonAppState j =
        .ok { todos := []
              current_input := ""
              selected_index := -1
              status_message := "State loaded."
              exit_requested := false }) := by
  constructor
  · intro j elems hfind hbad
    have hmap : ∃ msg, decodeItems elems =
        (.error msg : Except String (List TodoItem)) := by
      obtain ⟨e, he, msg, herr⟩ := hbad
      clear hfind
      induction elems with
      | nil => simp at he
      | cons a rest ih =>
          rcases List.mem_cons.mp he with rfl | hmem
          · exact ⟨msg, by simp [decodeItems, herr]⟩
          · cases ha : fromJsonTodoItem a with
            | error m => exact ⟨m, by simp [decodeItems, ha]⟩
            | ok t =>
                obtain ⟨m, hm⟩ := ih hmem
                exact ⟨m, by simp [decodeItems, ha, hm]⟩
    obtain ⟨msg, hmap⟩ := hmap
    refine ⟨msg, ?_⟩
    unfold fromJsonAppState
    rw [hfind]
    dsimp only
    rw [hmap]
  · intro j hne
    unfold fromJsonAppState
    cases hfind : j.find "todos" with
    | none => rfl
    | some v =>
        cases v with
        | arr elems => exact absurd hfind (hne elems)
        | null => rfl
        | bool b => rfl
        | str t => rfl
        | num n => rfl
        | obj fields => rfl

/-- Witness for the amended C5: a malformed element fails, a missing key
succeeds with the empty list. -/
theorem decode_invalid_documents_witness :
    (∃ msg, fromJsonAppState
        (Json.obj [("todos", Json.arr [Json.null])]) = .error msg) ∧
    fromJsonAppState (Json.obj []) =
      .ok { todos := []
            current_input := ""
            selected_index := -1
            status_message := "State loaded."
            exit_requested := false } := by
  constructor
  · exact decode_invalid_documents.1 (Json.obj [("todos", Json.arr [Json.null])])
      [Json.null] rfl ⟨Json.null, by simp, "key text not found", rfl⟩
  · exact decode_invalid_documents.2 (Json.obj []) (fun elems h => by
      simp [Json.find, List.lookup] at h)

end VibeTodo
